import Mathlib

/-!
Verification development for the Research-Podcast-Agent repository.

The Python sources (agent.py, supervisor.py, web_researcher.py, speaker.py)
are shallowly embedded below.  Conventions:

* Python dictionaries for task specifications become the structure `TaskSpec`
  whose fields are `Option String` (`none` models an absent key, matching
  the semantics of `dict.get`).
* Real-valued scores (`confidence_score`, `relevance_score`) are modelled
  with exact rationals `ℚ`; the Python code uses floating point, but every
  constant involved (0.1, 0.2, 0.3, 0.4, 0.6, 0.95, 1.0) and every
  comparison in the claims is matched exactly by the rational model.
* External collaborators (the chat-completion provider, the Google search
  endpoint, the HTTP fetch together with HTML parsing and regex cleaning)
  are black boxes per the specification; each call site takes the response
  of the collaborator as an explicit oracle argument (`Except` for calls
  that can raise, `Option` for fetches that can fail).  Everything the
  repository itself computes from those responses is embedded from the
  source.
* A Python exception raised by an agent is modelled by `Except.error`; the
  embedded callers reproduce the `try/except` structure of the source.
* Character data that the claims measure by length (scraped page content,
  the narration text of speaker.py) is modelled as `List Char`; short
  labels, statuses and URLs stay `String`.
-/

/-- agent.py: the pydantic model `TaskResult`. -/
structure TaskResult where
  task_id : String
  task_description : String
  findings : String
  sources : List String
  confidence_score : ℚ
  status : String
deriving DecidableEq

/-- A task dictionary as produced by `Supervisor.plan_research` and consumed
by `execute_task`.  Each field models one key of the Python dict; `none`
models an absent key. -/
structure TaskSpec where
  task_id : Option String
  type : Option String
  query : Option String
  description : Option String
  context : Option String
deriving DecidableEq

/-- One entry of the standardized search-result format produced by
`parse_google_search_results` / `simulate_search_results`. -/
structure SearchResult where
  title : String
  url : String
  snippet : String
  domain : String
  source : String
deriving DecidableEq

/-- One extracted-content dictionary built by `extract_single_source`
(web_researcher.py).  `content` is kept as `List Char` so the length
thresholds of the source are measured exactly. -/
structure ExtractedContent where
  url : String
  title : String
  domain : String
  content : List Char
  snippet : String
  relevance_score : ℚ
deriving DecidableEq

/-- A sub-agent as the Supervisor sees it (class `BaseAgent` of agent.py):
a capability predicate and an execution that can raise (`Except.error`
models a raised Python exception). -/
structure Agent where
  agent_id : String
  canHandle : String → Bool
  execute : TaskSpec → Except String TaskResult

/-- Python truthiness of `Optional[str]`: `None` and the empty string are
falsy. -/
def truthyOpt : Option String → Bool
  | none => false
  | some s => !s.isEmpty

/-- Prefix test on character lists (used for the substring test below). -/
def isPrefixList : List Char → List Char → Bool
  | [], _ => true
  | _ :: _, [] => false
  | a :: as, b :: bs => a == b && isPrefixList as bs

/-- Contiguous-substring test on character lists; models the Python
operator `needle in hay` on strings. -/
def hasSubstr (hay needle : List Char) : Bool :=
  hay.tails.any (fun t => isPrefixList needle t)

/-- Substring test on `String`, via the underlying character lists. -/
def strContains (hay needle : String) : Bool :=
  hasSubstr hay.data needle.data

/-- web_researcher.py `WebResearcher.simulate_search_results`: the
deterministic two-entry placeholder result set. -/
def simulate_search_results (query : String) : List SearchResult :=
  [{ title := "Research on " ++ query,
     url := "https://example.com/research/" ++ query.replace " " "-",
     snippet := "Comprehensive information about " ++ query,
     domain := "example.com",
     source := "simulated" },
   { title := query ++ " - Academic Study",
     url := "https://academic.edu/study/" ++ query.replace " " "_",
     snippet := "Academic research on " ++ query,
     domain := "academic.edu",
     source := "simulated" }]

/-- web_researcher.py `WebResearcher.perform_web_search`.  The Google
credentials are the two environment values read at construction; the
outcome of `call_google_search_api` (a raised exception or a parsed result
list) is the oracle `googleCall`.  The source catches the exception and
leaves `search_results` empty, then falls back to the simulated results
whenever `search_results` is empty. -/
def perform_web_search (google_api_key google_search_engine_id : Option String)
    (googleCall : Except String (List SearchResult)) (query : String) :
    List SearchResult :=
  let search_results : List SearchResult :=
    if truthyOpt google_api_key && truthyOpt google_search_engine_id then
      match googleCall with
      | Except.ok rs => rs
      | Except.error _ => []
    else []
  if search_results.isEmpty then simulate_search_results query else search_results

/-- web_researcher.py `WebResearcher.scrape_web_content`.  The HTTP fetch,
BeautifulSoup extraction and `clean_extracted_content` regex cleaning act
on data from the external web, so the oracle `fetched` holds the cleaned
text of the page (`none` models a request error, a non-200 status, or a
raised exception, all of which make the source return `None`).  The final
`content[:5000]` truncation of the source is embedded. -/
def scrape_web_content (fetched : Option (List Char)) : Option (List Char) :=
  fetched.map (fun cleaned => cleaned.take 5000)

/-- web_researcher.py `WebResearcher.calculate_relevance_score`: domain
reputation plus content-length plus title-length scoring, capped at 1. -/
def calculate_relevance_score (content : List Char) (source : SearchResult) : ℚ :=
  let score : ℚ := 0
  let score :=
    if strContains source.domain ".edu" || strContains source.domain ".gov" ||
       strContains source.domain ".org" then score + 3/10
    else if strContains source.domain "bbc" || strContains source.domain "reuters" ||
            strContains source.domain "cnn" || strContains source.domain "nytimes" then
      score + 2/10
    else score
  let score :=
    if 1000 < content.length then score + 2/10
    else if 500 < content.length then score + 1/10
    else score
  let score := if 10 < source.title.toLower.length then score + 1/10 else score
  min score 1

/-- web_researcher.py `extract_single_source` (the inner coroutine of
`extract_content_from_sources`): scrape the url; keep the source only when
the scraped content is truthy and longer than 100 characters, attaching a
relevance score; any failure yields `None`. -/
def extract_single_source (fetched : Option (List Char)) (source : SearchResult) :
    Option ExtractedContent :=
  match scrape_web_content fetched with
  | some content =>
      if 100 < content.length then
        some { url := source.url, title := source.title, domain := source.domain,
               content := content, snippet := source.snippet,
               relevance_score := calculate_relevance_score content source }
      else none
  | none => none

/-- web_researcher.py `WebResearcher.extract_content_from_sources`: take at
most `max_sources = 10` results, extract each (the per-fetch outcome is the
oracle `fetch`; `asyncio.gather` returns in submission order), drop the
failures, and stable-sort descending by relevance score, mirroring
`list.sort(key=..., reverse=True)`. -/
def extract_content_from_sources (fetch : SearchResult → Option (List Char))
    (search_results : List SearchResult) : List ExtractedContent :=
  if search_results.isEmpty then []
  else
    let limited_results := search_results.take 10
    let results := limited_results.filterMap (fun s => extract_single_source (fetch s) s)
    results.insertionSort (fun a b => b.relevance_score ≤ a.relevance_score)

/-- web_researcher.py `WebResearcher.extract_reliable_sources`: urls of the
extracted items whose relevance score exceeds 0.1. -/
def extract_reliable_sources (extracted_content : List ExtractedContent) : List String :=
  (extracted_content.filter (fun c => 1/10 < c.relevance_score)).map (fun c => c.url)

/-- web_researcher.py `WebResearcher.calculate_confidence_score`: source
count term capped at 0.6 plus 0.4 times the mean relevance, capped at 0.95;
0 when nothing was extracted. -/
def calculate_confidence_score (extracted_content : List ExtractedContent)
    (sources : List String) : ℚ :=
  if extracted_content.isEmpty then 0
  else
    let source_score := min ((sources.length : ℚ) * (2/10)) (6/10)
    let avg_relevance :=
      ((extracted_content.map (fun c => c.relevance_score)).sum) /
        (extracted_content.length : ℚ)
    let quality_score := avg_relevance * (4/10)
    min (source_score + quality_score) (95/100)

/-- web_researcher.py `WebResearcher.create_fallback_summary`: deterministic
summary used when the synthesis call fails. -/
def create_fallback_summary (query : String) (extracted_content : List ExtractedContent) :
    String :=
  if extracted_content.isEmpty then
    "No substantial information found for '" ++ query ++ "'."
  else
    let summary_parts :=
      ["Research findings for '" ++ query ++ "':\n"] ++
        (extracted_content.take 2).enum.map (fun p =>
          Nat.repr (p.1 + 1) ++ ". From " ++ p.2.domain ++ ": " ++
            String.mk (p.2.content.take 200) ++ "...")
    String.intercalate "\n" summary_parts

/-- web_researcher.py `WebResearcher.synthesize_research_findings`: fixed
message when nothing was extracted; otherwise the chat-completion response
(oracle `llm`), falling back to `create_fallback_summary` when the provider
raises.  The prompt built from `description` and `context` only feeds the
oracle. -/
def synthesize_research_findings (llm : Except String String) (query : String)
    (extracted_content : List ExtractedContent) : String :=
  if extracted_content.isEmpty then
    "Unable to find substantial information about '" ++ query ++
      "'. No reliable sources were accessible."
  else
    match llm with
    | Except.ok s => s
    | Except.error _ => create_fallback_summary query extracted_content

/-- The external responses one `WebResearcher.execute_task` run can observe:
the two Google credentials, the search-call outcome, the per-source cleaned
fetch text, and the synthesis-call outcome. -/
structure WebEnv where
  google_api_key : Option String
  google_search_engine_id : Option String
  googleCall : Except String (List SearchResult)
  fetch : SearchResult → Option (List Char)
  synth : Except String String

/-- web_researcher.py `WebResearcher.execute_task`: missing or empty query
returns a failed result with the agent id `web_researcher`; otherwise the
search / extraction / synthesis / filtering / confidence pipeline runs and
the result is completed, again carrying the agent id. -/
def WebResearcher.execute_task (env : WebEnv) (task : TaskSpec) : TaskResult :=
  let description := task.description.getD "No description provided"
  if truthyOpt task.query then
    let query := task.query.getD ""
    let search_results :=
      perform_web_search env.google_api_key env.google_search_engine_id
        env.googleCall query
    let extracted_content := extract_content_from_sources env.fetch search_results
    let synthesized_findings :=
      synthesize_research_findings env.synth query extracted_content
    let reliable_sources := extract_reliable_sources extracted_content
    let confidence_score := calculate_confidence_score extracted_content reliable_sources
    { task_id := "web_researcher", task_description := description,
      findings := synthesized_findings, sources := reliable_sources,
      confidence_score := confidence_score, status := "completed" }
  else
    { task_id := "web_researcher", task_description := description,
      findings := "No query provided for web search", sources := [],
      confidence_score := 0, status := "failed" }

/-- supervisor.py, the fallback question triplet built inside
`generate_follow_up_questions` when the provider call or the JSON parse
fails.  The third template does not interpolate the topic. -/
def fallback_questions (research_topic : String) : List String :=
  ["What specific aspects of " ++ research_topic ++ " are you most interested in?",
   "Are there any time constraints or geographic focus for this research on " ++
     research_topic ++ "?",
   "What is the primary goal or outcome you hope to achieve with this research?"]

/-- The numbered-question message built by both branches of
`generate_follow_up_questions` (`f"{i}. {question}\n"` with enumeration
starting at 1, after the fixed header). -/
def formatQuestionList (questions : List String) : String :=
  questions.enum.foldl
    (fun message p => message ++ Nat.repr (p.1 + 1) ++ ". " ++ p.2 ++ "\n")
    "To better focus the research, please consider these follow-up questions:\n\n"

/-- supervisor.py `Supervisor.generate_follow_up_questions`.  The combined
outcome of the chat-completion call and the JSON parse is the oracle
`providerParse` (a parsed `questions` list with `explanation`, or an
exception); the whole body is wrapped in `try/except`, and the except
branch returns the fallback triplet with its formatted message. -/
def generate_follow_up_questions
    (providerParse : Except String (List String × String)) (research_topic : String) :
    List String × String :=
  match providerParse with
  | Except.ok qd =>
      (qd.1, formatQuestionList qd.1 ++ "\n" ++ qd.2)
  | Except.error _ =>
      let fallback := fallback_questions research_topic
      (fallback, formatQuestionList fallback)

/-- supervisor.py: `task.get("type", "unknown")` used by
`group_tasks_by_type`. -/
def taskType (t : TaskSpec) : String := t.type.getD "unknown"

/-- The first occurrence of each string, in first-seen order; models the
key order of a Python dict built by insertion. -/
def firstSeen : List String → List String
  | [] => []
  | x :: xs => x :: firstSeen (xs.filter (fun y => y ≠ x))
termination_by l => l.length
decreasing_by
  simp only [List.length_cons]
  exact Nat.lt_succ_of_le (List.length_filter_le _ _)

/-- supervisor.py `Supervisor.group_tasks_by_type`: the insertion-ordered
dict mapping each type to the sublist of tasks of that type, rendered as an
association list (keys in first-seen order, each group in input order). -/
def group_tasks_by_type (tasks : List TaskSpec) : List (String × List TaskSpec) :=
  (firstSeen (tasks.map taskType)).map
    (fun tt => (tt, tasks.filter (fun t => taskType t == tt)))

/-- supervisor.py `execute_single_task` (the inner coroutine of
`execute_tasks_parallel`): run the agent and convert a raised exception
into the synthetic failed TaskResult. -/
def execute_single_task (task : TaskSpec) (agent : Agent) : TaskResult :=
  match agent.execute task with
  | Except.ok result => result
  | Except.error e =>
      { task_id := task.task_id.getD "failed_task",
        task_description := task.description.getD "Failed task",
        findings := "Task failed with error: " ++ e,
        sources := [], confidence_score := 0, status := "failed" }

/-- Placeholder result used only to express list indexing totally; never
reachable under the bounds established in the theorems. -/
def dummyResult : TaskResult :=
  { task_id := "", task_description := "", findings := "", sources := [],
    confidence_score := 0, status := "" }

/-- Placeholder agent for total indexing; never reachable because the
round-robin index is always below the (positive) agent count. -/
def dummyAgent : Agent :=
  { agent_id := "", canHandle := fun _ => false, execute := fun _ => Except.error "" }

/-- Model of `asyncio.gather`: the submitted jobs finish in the arbitrary
order `completion` (a permutation of the submission indices), each
completion records its submission index, and the gathered output lists the
results by submission index — not by completion order. -/
def gather (jobs : List TaskResult) (completion : List Nat) : List TaskResult :=
  let completions :=
    completion.filterMap (fun j => (jobs.get? j).map (fun r => (j, r)))
  (List.range jobs.length).filterMap (fun i => completions.lookup i)

/-- supervisor.py `Supervisor.execute_tasks_parallel`: empty input guard,
round-robin assignment of task `i` to agent `i % len(agents)`, concurrent
execution gathered in submission order (`completion` is the completion
order of the in-flight tasks), and the `isinstance` filter, which keeps
everything because `execute_single_task` never raises. -/
def execute_tasks_parallel (tasks : List TaskSpec) (agents : List Agent)
    (completion : List Nat) : List TaskResult :=
  if tasks.isEmpty || agents.isEmpty then []
  else
    let task_assignments :=
      tasks.enum.map
        (fun p => execute_single_task p.2 (agents.getD (p.1 % agents.length) dummyAgent))
    gather task_assignments completion

/-- supervisor.py `Supervisor.delegate_tasks`: group the tasks by type; for
each group keep the registered sub-agents whose `can_handle_task` accepts
the type; skip the group when none does, otherwise run it with
`execute_tasks_parallel` and append the results.  `completionOf` gives the
completion order of each group run (one per task type). -/
def delegate_tasks (sub_agents : List Agent) (completionOf : String → List Nat)
    (tasks : List TaskSpec) : List TaskResult :=
  if tasks.isEmpty then []
  else
    (group_tasks_by_type tasks).foldl
      (fun all_results g =>
        let capable_agents := sub_agents.filter (fun a => a.canHandle g.1)
        if capable_agents.isEmpty then all_results
        else all_results ++ execute_tasks_parallel g.2 capable_agents (completionOf g.1))
      []

/-- speaker.py: `text.replace("\n", " ")` at the start of
`_split_into_chunks`. -/
def replaceNewlines (text : List Char) : List Char :=
  text.map (fun c => if c == '\n' then ' ' else c)

/-- The sentence-terminator class of the splitting pattern of speaker.py
(the lookbehind `(?<=[.!?])`). -/
def isSentenceEnd (c : Char) : Bool := c == '.' || c == '!' || c == '?'

/-- Model of `re.split(r'(?<=[.!?])\s+', text)` from speaker.py: scanning
left to right, a maximal whitespace run immediately preceded by `.`, `!`
or `?` is a separator and is consumed.  `skipping` is true while consuming
such a run; `cur` holds the characters of the current sentence in reverse. -/
def splitSentencesAux : Bool → List Char → List Char → List (List Char)
  | _, cur, [] => [cur.reverse]
  | skipping, cur, c :: rest =>
    if skipping && c.isWhitespace then splitSentencesAux true cur rest
    else if c.isWhitespace && cur.head?.any isSentenceEnd then
      cur.reverse :: splitSentencesAux true [] rest
    else splitSentencesAux false (c :: cur) rest

/-- Python `str.strip()`: drop whitespace from both ends. -/
def stripChars (cs : List Char) : List Char :=
  ((cs.dropWhile Char.isWhitespace).reverse.dropWhile Char.isWhitespace).reverse

/-- speaker.py `Speaker._split_into_chunks` (the underscore of the source
name is dropped): replace newlines, split into sentences, then greedily
pack sentences into chunks; a sentence is moved to a fresh chunk only when
the current chunk is nonempty and would overflow `max_length`. -/
def split_into_chunks (text : List Char) (max_length : Nat) : List (List Char) :=
  let sentences := splitSentencesAux false [] (replaceNewlines text)
  let packed :=
    sentences.foldl
      (fun (acc : List (List Char) × List Char) sentence =>
        if sentence = [] then acc
        else if max_length < acc.2.length + sentence.length + 1 ∧ acc.2 ≠ [] then
          (acc.1 ++ [stripChars acc.2], sentence ++ [' '])
        else (acc.1, acc.2 ++ sentence ++ [' ']))
      ([], [])
  if packed.2 = [] then packed.1 else packed.1 ++ [stripChars packed.2]

/-- The confidence formula exactly as the specification words it (C3):
`min(0.2 * min(len(reliable_sources), 3), 0.6) + 0.4 * mean(relevance)`
capped at 0.95, and 0 when nothing was extracted.  Stated separately from
`calculate_confidence_score` for the refinement comparison. -/
def confidence_score_spec (extracted_content : List ExtractedContent)
    (sources : List String) : ℚ :=
  if extracted_content.isEmpty then 0
  else
    min (min ((2/10) * (min (sources.length : ℚ) 3)) (6/10) +
          (4/10) * (((extracted_content.map (fun c => c.relevance_score)).sum) /
            (extracted_content.length : ℚ)))
      (95/100)

/-- Concrete web environment for witnesses: no credentials, every external
call failing, every fetch failing. -/
def testEnv : WebEnv :=
  { google_api_key := none, google_search_engine_id := none,
    googleCall := Except.error "offline", fetch := fun _ => none,
    synth := Except.error "offline" }

/-- Concrete task with every field present. -/
def testTask : TaskSpec :=
  { task_id := some "research_task_1", type := some "web_search",
    query := some "q", description := some "d", context := none }

/-- Concrete second web-search task. -/
def testTask2 : TaskSpec :=
  { task_id := some "research_task_2", type := some "web_search",
    query := some "q2", description := some "d2", context := none }

/-- Concrete task of a type no test agent handles. -/
def videoTask : TaskSpec :=
  { task_id := some "research_task_3", type := some "video",
    query := some "q3", description := some "d3", context := none }

/-- Concrete task without a query. -/
def noQueryTask : TaskSpec :=
  { task_id := some "t0", type := some "web_search", query := none,
    description := none, context := none }

/-- Concrete agent whose execution always raises. -/
def failAgent : Agent :=
  { agent_id := "boom_agent", canHandle := fun _ => true,
    execute := fun _ => Except.error "boom" }

/-- Concrete agent handling web_search tasks successfully. -/
def okAgent : Agent :=
  { agent_id := "ok_agent", canHandle := fun tt => tt == "web_search",
    execute := fun t =>
      Except.ok { task_id := t.task_id.getD "x", task_description := "done",
                  findings := "f", sources := [], confidence_score := 1/2,
                  status := "completed" } }

/-- Concrete search source used in the extraction counterexample. -/
def testSource : SearchResult :=
  { title := "Example Title", url := "https://example.com/a", snippet := "s",
    domain := "example.com", source := "simulated" }

/-- Completion orders used by the delegation witnesses: the web_search
group of two tasks finishes in reverse order, singleton groups in order. -/
def completionW : String → List Nat :=
  fun tt => if tt == "web_search" then [1, 0] else [0]

/-- Concrete task list mixing a covered type (web_search, twice) with an
uncovered one (video). -/
def tasksW : List TaskSpec := [testTask, testTask2, videoTask]

/-- A single sentence of 4001 identical letters: no sentence separator ever
matches inside it. -/
def oversizedText : List Char := List.replicate 4001 'a'

theorem calculate_relevance_score_bounds (content : List Char) (source : SearchResult) :
    0 ≤ calculate_relevance_score content source ∧
      calculate_relevance_score content source ≤ 1 := by
  unfold calculate_relevance_score
  split_ifs <;>
    exact ⟨le_min (by norm_num) (by norm_num), min_le_right _ _⟩

theorem mem_extract_content_bounds (fetch : SearchResult → Option (List Char))
    (search_results : List SearchResult) :
    ∀ item ∈ extract_content_from_sources fetch search_results,
      0 ≤ item.relevance_score ∧ item.relevance_score ≤ 1 := by
  intro item hmem
  simp only [extract_content_from_sources] at hmem
  split at hmem
  · simp at hmem
  · have hmem' := (List.perm_insertionSort
      (fun a b : ExtractedContent => b.relevance_score ≤ a.relevance_score) _).mem_iff.mp hmem
    rcases List.mem_filterMap.mp hmem' with ⟨src, _, hsome⟩
    cases hf : scrape_web_content (fetch src) with
    | none =>
        simp only [extract_single_source, hf] at hsome
        exact absurd hsome (by simp)
    | some content =>
        simp only [extract_single_source, hf] at hsome
        split at hsome
        · rcases Option.some_injective _ hsome with rfl
          exact calculate_relevance_score_bounds content src
        · exact absurd hsome (by simp)

theorem calculate_confidence_score_bounds (extracted : List ExtractedContent)
    (sources : List String) (h : ∀ x ∈ extracted, 0 ≤ x.relevance_score) :
    0 ≤ calculate_confidence_score extracted sources ∧
      calculate_confidence_score extracted sources ≤ 1 := by
  unfold calculate_confidence_score
  split
  · norm_num
  · constructor
    · refine le_min (add_nonneg (le_min ?_ (by norm_num)) ?_) (by norm_num)
      · exact mul_nonneg (Nat.cast_nonneg _) (by norm_num)
      · refine mul_nonneg (div_nonneg ?_ (Nat.cast_nonneg _)) (by norm_num)
        refine List.sum_nonneg ?_
        intro y hy
        rcases List.mem_map.mp hy with ⟨x, hx, rfl⟩
        exact h x hx
    · exact le_trans (min_le_right _ _) (by norm_num)

/-- C3: for every list of extracted content items and every list of
reliable-source urls, `calculate_confidence_score` returns exactly
`min(0.2 * min(len(sources), 3), 0.6) + 0.4 * mean(relevance)` capped at
0.95, and exactly 0 when the extracted list is empty — the code formula
`min(len(sources) * 0.2, 0.6)` coincides with the spec formula. -/
theorem calculate_confidence_score_matches_spec
    (extracted : List ExtractedContent) (sources : List String) :
    calculate_confidence_score extracted sources =
      confidence_score_spec extracted sources := by
  unfold calculate_confidence_score confidence_score_spec
  split
  · rfl
  · have key : min ((sources.length : ℚ) * (2/10)) (6/10) =
        min ((2/10) * min ((sources.length : ℚ)) 3) (6/10) := by
      rcases le_total ((sources.length : ℚ)) 3 with h | h
      · rw [min_eq_left h, mul_comm]
      · rw [min_eq_right h]
        have h1 : (6/10 : ℚ) ≤ (sources.length : ℚ) * (2/10) := by linarith
        rw [min_eq_right h1]
        norm_num
    dsimp only
    rw [key, mul_comm ((List.map (fun c => c.relevance_score) extracted).sum /
      (extracted.length : ℚ)) ((4 : ℚ)/10)]

/-- C10: for every environment and every task, the status of the result of
`WebResearcher.execute_task` is `completed` or `failed` (never `partial` or
`unsupported`), and it is `failed` exactly when the task has no truthy
query. -/
theorem web_researcher_status_dichotomy (env : WebEnv) (task : TaskSpec) :
    ((WebResearcher.execute_task env task).status = "completed" ∨
      (WebResearcher.execute_task env task).status = "failed") ∧
    ((WebResearcher.execute_task env task).status = "failed" ↔
      truthyOpt task.query = false) := by
  cases ht : truthyOpt task.query <;>
    simp [WebResearcher.execute_task, ht]

/-- C7: for every credential pair, every search-call outcome and every
query, `perform_web_search` returns a non-empty list, and whenever the
credential pair is not (both) present, the call raised, or the call
returned zero results, it returns exactly the deterministic two-entry
placeholder set `simulate_search_results query`. -/
theorem perform_web_search_nonempty_fallback
    (google_api_key google_search_engine_id : Option String)
    (googleCall : Except String (List SearchResult)) (query : String) :
    perform_web_search google_api_key google_search_engine_id googleCall query ≠ [] ∧
    ((truthyOpt google_api_key && truthyOpt google_search_engine_id) = false ∨
        (∃ e, googleCall = Except.error e) ∨ googleCall = Except.ok [] →
      perform_web_search google_api_key google_search_engine_id googleCall query =
          simulate_search_results query ∧
        (simulate_search_results query).length = 2) := by
  constructor
  · unfold perform_web_search
    cases hc : (truthyOpt google_api_key && truthyOpt google_search_engine_id) with
    | false => simp [hc, simulate_search_results]
    | true =>
        cases googleCall with
        | error e => simp [hc, simulate_search_results]
        | ok rs => cases rs <;> simp [hc, simulate_search_results]
  · intro h
    refine ⟨?_, by simp [simulate_search_results]⟩
    unfold perform_web_search
    rcases h with hc | ⟨e, rfl⟩ | rfl
    · simp [hc]
    · cases hc : (truthyOpt google_api_key && truthyOpt google_search_engine_id) <;>
        simp [hc]
    · cases hc : (truthyOpt google_api_key && truthyOpt google_search_engine_id) <;>
        simp [hc]

/-- C7 witness: with no credentials configured and a zero-result call, the
search returns the two simulated entries. -/
theorem perform_web_search_nonempty_fallback_witness :
    perform_web_search none none (Except.ok []) "ai" = simulate_search_results "ai" ∧
      (simulate_search_results "ai").length = 2 :=
  (perform_web_search_nonempty_fallback none none (Except.ok []) "ai").2
    (Or.inl (by decide))

/-- C2 counterexample: a concrete task with `task_id = research_task_1`
executes successfully (status `completed`), yet the returned `task_id` is
the agent id `web_researcher`, not the task id — the direct success path
does not carry the TaskSpec task_id. -/
theorem web_researcher_task_id_counterexample :
    (WebResearcher.execute_task testEnv testTask).status = "completed" ∧
    testTask.task_id = some "research_task_1" ∧
    (WebResearcher.execute_task testEnv testTask).task_id = "web_researcher" ∧
    (WebResearcher.execute_task testEnv testTask).task_id ≠
      testTask.task_id.getD "" := by
  refine ⟨rfl, rfl, rfl, by decide⟩

/-- C2 as amended: on the direct path the description is carried unchanged
onto `task_description`, but `task_id` is reassigned to the agent id
`web_researcher` (on success and on the no-query failure alike); it is the
synthetic-failure path of the Coordinator that preserves the TaskSpec
`task_id` (defaulting to `failed_task` when absent) and the description
(defaulting to `Failed task`). -/
theorem task_identity_fields :
    (∀ (env : WebEnv) (task : TaskSpec) (q : String),
        task.query = some q → q ≠ "" →
        (WebResearcher.execute_task env task).status = "completed" ∧
        (WebResearcher.execute_task env task).task_id = "web_researcher" ∧
        (WebResearcher.execute_task env task).task_description =
          task.description.getD "No description provided") ∧
    (∀ (env : WebEnv) (task : TaskSpec),
        truthyOpt task.query = false →
        (WebResearcher.execute_task env task).status = "failed" ∧
        (WebResearcher.execute_task env task).task_id = "web_researcher" ∧
        (WebResearcher.execute_task env task).task_description =
          task.description.getD "No description provided") ∧
    (∀ (task : TaskSpec) (agent : Agent) (e : String),
        agent.execute task = Except.error e →
        (execute_single_task task agent).task_id = task.task_id.getD "failed_task" ∧
        (execute_single_task task agent).task_description =
          task.description.getD "Failed task") := by
  refine ⟨?_, ?_, ?_⟩
  · intro env task q hq hne
    have ht : truthyOpt task.query = true := by
      rw [hq]
      simpa [truthyOpt] using (String.isEmpty_iff q).not.mpr hne
    simp [WebResearcher.execute_task, ht]
  · intro env task ht
    simp [WebResearcher.execute_task, ht]
  · intro task agent e he
    simp [execute_single_task, he]

/-- C2 amended-claim witness at concrete inputs: a successful direct run,
a direct run with no query, and a raising agent. -/
theorem task_identity_fields_witness :
    (WebResearcher.execute_task testEnv testTask).task_description = "d" ∧
    ((WebResearcher.execute_task testEnv noQueryTask).task_id = "web_researcher" ∧
      (WebResearcher.execute_task testEnv noQueryTask).status = "failed") ∧
    (execute_single_task testTask failAgent).task_id = "research_task_1" := by
  refine ⟨?_, ⟨?_, ?_⟩, ?_⟩
  · have h := (task_identity_fields.1 testEnv testTask "q" rfl (by decide)).2.2
    simpa [testTask] using h
  · exact (task_identity_fields.2.1 testEnv noQueryTask rfl).2.1
  · exact (task_identity_fields.2.1 testEnv noQueryTask rfl).1
  · exact (task_identity_fields.2.2 testTask failAgent "boom" rfl).1

/-- C4: every result of a worker execution has a confidence score in
[0, 1], and a failed result carries confidence 0 and no sources; the same
holds for the synthetic failure results the Coordinator builds when an
agent execution raises. -/
theorem worker_result_confidence_invariant :
    (∀ (env : WebEnv) (task : TaskSpec),
        0 ≤ (WebResearcher.execute_task env task).confidence_score ∧
        (WebResearcher.execute_task env task).confidence_score ≤ 1 ∧
        ((WebResearcher.execute_task env task).status = "failed" →
          (WebResearcher.execute_task env task).confidence_score = 0 ∧
          (WebResearcher.execute_task env task).sources = [])) ∧
    (∀ (task : TaskSpec) (agent : Agent) (e : String),
        agent.execute task = Except.error e →
        (execute_single_task task agent).confidence_score = 0 ∧
        (execute_single_task task agent).sources = [] ∧
        (execute_single_task task agent).status = "failed") := by
  constructor
  · intro env task
    cases ht : truthyOpt task.query with
    | false =>
        simp [WebResearcher.execute_task, ht]
    | true =>
        have hb := calculate_confidence_score_bounds
          (extract_content_from_sources env.fetch
            (perform_web_search env.google_api_key env.google_search_engine_id
              env.googleCall (task.query.getD "")))
          (extract_reliable_sources
            (extract_content_from_sources env.fetch
              (perform_web_search env.google_api_key env.google_search_engine_id
                env.googleCall (task.query.getD ""))))
          (fun x hx => (mem_extract_content_bounds _ _ x hx).1)
        refine ⟨?_, ?_, ?_⟩
        · simpa [WebResearcher.execute_task, ht] using hb.1
        · simpa [WebResearcher.execute_task, ht] using hb.2
        · intro hst
          have : (WebResearcher.execute_task env task).status = "completed" := by
            simp [WebResearcher.execute_task, ht]
          rw [this] at hst
          exact absurd hst (by decide)
  · intro task agent e he
    simp [execute_single_task, he]

/-- C4 witness: a task with no query fails with confidence 0; an agent that
raises yields the synthetic failed result with confidence 0. -/
theorem worker_result_confidence_invariant_witness :
    ((WebResearcher.execute_task testEnv noQueryTask).confidence_score = 0 ∧
      (WebResearcher.execute_task testEnv noQueryTask).sources = []) ∧
    (execute_single_task noQueryTask failAgent).confidence_score = 0 ∧
    (execute_single_task noQueryTask failAgent).status = "failed" :=
  ⟨(worker_result_confidence_invariant.1 testEnv noQueryTask).2.2 rfl,
   (worker_result_confidence_invariant.2 noQueryTask failAgent "boom" rfl).1,
   (worker_result_confidence_invariant.2 noQueryTask failAgent "boom" rfl).2.2⟩

/-- C6 counterexample: under a forced provider failure the fallback triplet
for topic `topic X` has 3 questions, but the third question (`What is the
primary goal or outcome you hope to achieve with this research?`) does not
contain the topic as a substring — the third fallback template does not
interpolate the topic. -/
theorem follow_up_questions_topic_counterexample :
    (generate_follow_up_questions (Except.error "boom") "topic X").1.length = 3 ∧
    hasSubstr
      (((generate_follow_up_questions (Except.error "boom") "topic X").1.getD 2 "").data)
      (("topic X" : String).data) = false := by
  constructor
  · rfl
  · decide

/-- C6 as amended: under a forced provider or parse failure,
`generate_follow_up_questions` never raises and returns exactly 3
questions; the first two contain the topic as a substring while the third
is a fixed topic-independent template, and the returned formatted message
lists every one of the three questions. -/
theorem generate_follow_up_questions_fallback
    (providerParse : Except String (List String × String)) (topic e : String)
    (h : providerParse = Except.error e) :
    (generate_follow_up_questions providerParse topic).1.length = 3 ∧
    (∃ pre post : String,
        (generate_follow_up_questions providerParse topic).1.getD 0 "" =
          pre ++ topic ++ post) ∧
    (∃ pre post : String,
        (generate_follow_up_questions providerParse topic).1.getD 1 "" =
          pre ++ topic ++ post) ∧
    (∀ q ∈ (generate_follow_up_questions providerParse topic).1,
        ∃ pre post : String,
          (generate_follow_up_questions providerParse topic).2 = pre ++ q ++ post) := by
  subst h
  refine ⟨rfl, ⟨"What specific aspects of ", " are you most interested in?", rfl⟩,
    ⟨"Are there any time constraints or geographic focus for this research on ", "?", rfl⟩,
    ?_⟩
  intro q hq
  have hq' : q ∈ fallback_questions topic := hq
  have hmsg : (generate_follow_up_questions (Except.error e) topic).2 =
      formatQuestionList (fallback_questions topic) := rfl
  rw [hmsg]
  simp only [fallback_questions, List.mem_cons, List.not_mem_nil, or_false] at hq'
  have hform : formatQuestionList (fallback_questions topic) =
      "To better focus the research, please consider these follow-up questions:\n\n" ++
        Nat.repr 1 ++ ". " ++
        ("What specific aspects of " ++ topic ++ " are you most interested in?") ++ "\n" ++
        Nat.repr 2 ++ ". " ++
        ("Are there any time constraints or geographic focus for this research on " ++
          topic ++ "?") ++ "\n" ++
        Nat.repr 3 ++ ". " ++
        "What is the primary goal or outcome you hope to achieve with this research?" ++
        "\n" := by
    simp [formatQuestionList, fallback_questions, List.enum, List.enumFrom,
      String.append_assoc]
  rcases hq' with rfl | rfl | rfl
  · exact ⟨"To better focus the research, please consider these follow-up questions:\n\n" ++
        Nat.repr 1 ++ ". ",
      "\n" ++ Nat.repr 2 ++ ". " ++
        ("Are there any time constraints or geographic focus for this research on " ++
          topic ++ "?") ++ "\n" ++ Nat.repr 3 ++ ". " ++
        "What is the primary goal or outcome you hope to achieve with this research?" ++
        "\n",
      by rw [hform]; try simp only [String.append_assoc]⟩
  · exact ⟨"To better focus the research, please consider these follow-up questions:\n\n" ++
        Nat.repr 1 ++ ". " ++
        ("What specific aspects of " ++ topic ++ " are you most interested in?") ++ "\n" ++
        Nat.repr 2 ++ ". ",
      "\n" ++ Nat.repr 3 ++ ". " ++
        "What is the primary goal or outcome you hope to achieve with this research?" ++
        "\n",
      by rw [hform]; try simp only [String.append_assoc]⟩
  · exact ⟨"To better focus the research, please consider these follow-up questions:\n\n" ++
        Nat.repr 1 ++ ". " ++
        ("What specific aspects of " ++ topic ++ " are you most interested in?") ++ "\n" ++
        Nat.repr 2 ++ ". " ++
        ("Are there any time constraints or geographic focus for this research on " ++
          topic ++ "?") ++ "\n" ++ Nat.repr 3 ++ ". ",
      "\n",
      by rw [hform]; try simp only [String.append_assoc]⟩

/-- C6 amended-claim witness at a concrete forced failure. -/
theorem generate_follow_up_questions_fallback_witness :
    (generate_follow_up_questions (Except.error "sim-failure") "topic X").1.length = 3 :=
  (generate_follow_up_questions_fallback (Except.error "sim-failure") "topic X"
    "sim-failure" rfl).1

/-- C8 counterexample: a source whose cleaned content has exactly 100
characters is dropped by `extract_single_source` (the source requires
strictly more than 100), refuting the claim that 100-or-more characters
are retained. -/
theorem extraction_boundary_counterexample :
    extract_single_source (some (List.replicate 100 'a')) testSource = none ∧
    (List.replicate 100 'a').length = 100 := by
  constructor
  · simp [extract_single_source, scrape_web_content, List.take_replicate]
  · simp

/-- C8 as amended: a fetched source is dropped exactly when its fetch
errors or its cleaned content has at most 100 characters (strictly more
than 100 characters are required for retention), and every retained item
holds content truncated to at most 5000 characters. -/
theorem extraction_retention_rule (fetched : Option (List Char)) (source : SearchResult) :
    (extract_single_source fetched source = none ↔
      fetched = none ∨ ∃ c, fetched = some c ∧ c.length ≤ 100) ∧
    (∀ item, extract_single_source fetched source = some item →
      item.content.length ≤ 5000) := by
  cases fetched with
  | none => simp [extract_single_source, scrape_web_content]
  | some c =>
      have hlen : ((c.take 5000).length) = min 5000 c.length := List.length_take _ _
      by_cases h : 100 < c.length
      · have h' : 100 < (c.take 5000).length := by rw [hlen]; omega
        constructor
        · simp only [extract_single_source, scrape_web_content, Option.map_some',
            if_pos h']
          constructor
          · intro hc
            exact absurd hc (by simp)
          · rintro (hc | ⟨c', hc, hle⟩)
            · exact absurd hc (by simp)
            · rcases Option.some_injective _ hc with rfl
              omega
        · intro item hit
          simp only [extract_single_source, scrape_web_content, Option.map_some',
            if_pos h'] at hit
          rcases Option.some_injective _ hit with rfl
          simp only []
          rw [hlen]
          omega
      · have h' : ¬ 100 < (c.take 5000).length := by rw [hlen]; omega
        constructor
        · simp only [extract_single_source, scrape_web_content, Option.map_some',
            if_neg h']
          constructor
          · intro _
            exact Or.inr ⟨c, rfl, by omega⟩
          · intro _
            trivial
        · intro item hit
          simp only [extract_single_source, scrape_web_content, Option.map_some',
            if_neg h'] at hit
          exact absurd hit (by simp)

/-- C8 amended-claim witness: a failed fetch is dropped. -/
theorem extraction_retention_rule_witness :
    extract_single_source (none : Option (List Char)) testSource = none :=
  (extraction_retention_rule none testSource).1.mpr (Or.inl rfl)

theorem splitSentencesAux_no_whitespace :
    ∀ (l : List Char) (skipping : Bool) (cur : List Char),
      (∀ c ∈ l, c.isWhitespace = false) →
      splitSentencesAux skipping cur l = [cur.reverse ++ l] := by
  intro l
  induction l with
  | nil => intro skipping cur _; simp [splitSentencesAux]
  | cons c rest ih =>
      intro skipping cur h
      have hc : c.isWhitespace = false := h c (List.mem_cons_self _ _)
      have hrest : ∀ x ∈ rest, x.isWhitespace = false :=
        fun x hx => h x (List.mem_cons_of_mem _ hx)
      simp only [splitSentencesAux, hc, Bool.and_false, Bool.false_and,
        Bool.false_eq_true, if_false]
      rw [ih false (c :: cur) hrest]
      simp

theorem oversized_cons : oversizedText = 'a' :: List.replicate 4000 'a' := by
  unfold oversizedText
  rw [show (4001 : Nat) = 4000 + 1 from rfl, List.replicate_succ]

theorem oversizedText_ne_nil : oversizedText ≠ [] := by
  rw [oversized_cons]
  exact List.cons_ne_nil _ _

theorem oversized_length : oversizedText.length = 4001 := by
  unfold oversizedText
  simp only [List.length_replicate]

theorem oversized_reverse : oversizedText.reverse = oversizedText := by
  unfold oversizedText
  simp only [List.reverse_replicate]

theorem dropWhile_oversized :
    oversizedText.dropWhile Char.isWhitespace = oversizedText := by
  conv_lhs => rw [oversized_cons]
  rw [List.dropWhile_cons, if_neg (by decide : ¬(('a' : Char).isWhitespace = true))]
  rw [← oversized_cons]

theorem stripChars_oversized :
    stripChars (oversizedText ++ [' ']) = oversizedText := by
  unfold stripChars
  have h1 : (oversizedText ++ [' ']).dropWhile Char.isWhitespace =
      oversizedText ++ [' '] := by
    conv_lhs => rw [oversized_cons, List.cons_append]
    rw [List.dropWhile_cons, if_neg (by decide : ¬(('a' : Char).isWhitespace = true))]
    rw [← List.cons_append, ← oversized_cons]
  rw [h1]
  have h2 : (oversizedText ++ [' ']).reverse = ' ' :: oversizedText := by
    rw [List.reverse_append, oversized_reverse]
    rfl
  rw [h2, List.dropWhile_cons, if_pos (by decide : (' ' : Char).isWhitespace = true)]
  rw [dropWhile_oversized, oversized_reverse]

theorem split_single_sentence (s : List Char) (max_length : Nat) (hne : s ≠ [])
    (hsent : splitSentencesAux false [] (replaceNewlines s) = [s]) :
    split_into_chunks s max_length = [stripChars (s ++ [' '])] := by
  unfold split_into_chunks
  rw [hsent]
  dsimp only
  rw [List.foldl_cons, List.foldl_nil]
  dsimp only
  rw [if_neg hne]
  rw [if_neg (fun hand => hand.2 rfl :
    ¬(max_length < List.length ([] : List Char) + s.length + 1 ∧
        ([] : List Char) ≠ []))]
  dsimp only
  rw [List.nil_append]
  rw [if_neg (fun h => hne (List.append_eq_nil.mp h).1)]
  rw [List.nil_append]

/-- C9: the claim that every chunk produced by `_split_into_chunks(text,
4000)` has at most 4000 characters is the stated intent of the source (the
docstring promises chunks respecting `max_length` and the constant is the
speech-synthesis character limit), but the code violates it: a single
sentence of 4001 letters with no separator is emitted unchanged as one
chunk of length 4001, because an oversized sentence is appended to the
empty current chunk without any further splitting. -/
theorem split_into_chunks_overflow :
    split_into_chunks oversizedText 4000 = [oversizedText] ∧
    oversizedText.length = 4001 := by
  have hno : ∀ c ∈ oversizedText, c.isWhitespace = false := by
    intro c hc
    have hceq : c = 'a' := List.eq_of_mem_replicate hc
    subst hceq
    decide
  have hrepl : replaceNewlines oversizedText = oversizedText := by
    unfold replaceNewlines oversizedText
    rw [List.map_replicate]
    exact congrArg (List.replicate 4001) (by decide)
  have hsent : splitSentencesAux false [] (replaceNewlines oversizedText) =
      [oversizedText] := by
    rw [hrepl, splitSentencesAux_no_whitespace oversizedText false [] hno]
    rfl
  refine ⟨?_, oversized_length⟩
  rw [split_single_sentence oversizedText 4000 oversizedText_ne_nil hsent]
  rw [stripChars_oversized]

theorem lookup_completions (jobs : List TaskResult) :
    ∀ (order : List Nat) (i : Nat),
      (order.filterMap (fun j => (jobs.get? j).map (fun r => (j, r)))).lookup i =
        if i ∈ order then jobs.get? i else none := by
  intro order
  induction order with
  | nil => intro i; simp
  | cons j rest ih =>
      intro i
      cases hj : jobs.get? j with
      | none =>
          simp only [List.filterMap_cons, hj, Option.map_none']
          rw [ih i]
          by_cases hij : i = j
          · subst hij
            rw [if_pos (List.mem_cons_self i rest), hj]
            split_ifs <;> rfl
          · simp [List.mem_cons, hij]
      | some v =>
          simp only [List.filterMap_cons, hj, Option.map_some']
          by_cases hij : i = j
          · subst hij
            rw [if_pos (List.mem_cons_self i rest), hj]
            simp [List.lookup]
          · have hbeq : (i == j) = false := beq_eq_false_iff_ne.mpr hij
            simp only [List.lookup, hbeq]
            rw [ih i]
            simp [List.mem_cons, hij]

theorem filterMap_eq_map_of {α : Type} (l : List Nat) (f : Nat → Option α)
    (g : Nat → α) (h : ∀ i ∈ l, f i = some (g i)) : l.filterMap f = l.map g := by
  induction l with
  | nil => simp
  | cons a as ih =>
      rw [List.filterMap_cons, h a (List.mem_cons_self _ _), List.map_cons]
      rw [ih (fun i hi => h i (List.mem_cons_of_mem _ hi))]

theorem map_getD_range {α : Type} (l : List α) (d : α) :
    (List.range l.length).map (fun i => l.getD i d) = l := by
  induction l with
  | nil => simp
  | cons a as ih =>
      rw [List.length_cons, List.range_succ_eq_map, List.map_cons, List.map_map]
      have hfun : ((fun i => (a :: as).getD i d) ∘ (fun i => i + 1)) =
          (fun i => as.getD i d) := by
        funext i
        simp [List.getD_cons_succ]
      rw [show (a :: as).getD 0 d = a from rfl, hfun, ih]

theorem gather_perm (jobs : List TaskResult) (order : List Nat)
    (h : order.Perm (List.range jobs.length)) : gather jobs order = jobs := by
  unfold gather
  dsimp only
  rw [filterMap_eq_map_of (List.range jobs.length) _ (fun i => jobs.getD i dummyResult)
    (fun i hi => ?_)]
  · exact map_getD_range jobs dummyResult
  · have hilt : i < jobs.length := List.mem_range.mp hi
    rw [lookup_completions jobs order i,
      if_pos (h.mem_iff.mpr (List.mem_range.mpr hilt))]
    have hgetD : jobs.getD i dummyResult = jobs.get ⟨i, hilt⟩ := by
      rw [List.getD_eq_getElem?_getD, List.getElem?_eq_getElem hilt]
      rfl
    rw [List.get?_eq_get hilt]
    exact congrArg some hgetD.symm

theorem execute_tasks_parallel_eq (tasks : List TaskSpec) (agents : List Agent)
    (completion : List Nat) (hA : agents ≠ [])
    (hperm : completion.Perm (List.range tasks.length)) :
    execute_tasks_parallel tasks agents completion =
      tasks.enum.map (fun p =>
        execute_single_task p.2 (agents.getD (p.1 % agents.length) dummyAgent)) := by
  unfold execute_tasks_parallel
  by_cases ht : tasks.isEmpty
  · have hnil : tasks = [] := List.isEmpty_iff.mp ht
    subst hnil
    simp
  · have hA' : agents.isEmpty = false := by
      cases agents with
      | nil => exact absurd rfl hA
      | cons a as => rfl
    have ht' : tasks.isEmpty = false := by
      cases htv : tasks.isEmpty with
      | false => rfl
      | true => exact absurd htv ht
    rw [ht', hA']
    simp only [Bool.or_self, Bool.false_eq_true, if_false]
    apply gather_perm
    have hlen : (tasks.enum.map (fun p =>
        execute_single_task p.2 (agents.getD (p.1 % agents.length) dummyAgent))).length =
        tasks.length := by
      rw [List.length_map, List.enum_length]
    rw [hlen]
    exact hperm

theorem execute_tasks_parallel_length (tasks : List TaskSpec) (agents : List Agent)
    (completion : List Nat) (hA : agents ≠ [])
    (hperm : completion.Perm (List.range tasks.length)) :
    (execute_tasks_parallel tasks agents completion).length = tasks.length := by
  rw [execute_tasks_parallel_eq tasks agents completion hA hperm]
  rw [List.length_map, List.enum_length]

/-- C5: within one group run with a non-empty agent list, the task at
0-based index `i` is assigned to `agents[i % len(agents)]`, and position
`i` of the output is exactly the result of that assignment, for every
completion order of the concurrently running tasks — the gather step
returns results in submission order, not completion order. -/
theorem round_robin_submission_order (tasks : List TaskSpec) (agents : List Agent)
    (completion : List Nat) (i : Nat) (hA : agents ≠ [])
    (hperm : completion.Perm (List.range tasks.length)) (hi : i < tasks.length)
    (hi2 : i % agents.length < agents.length) :
    (execute_tasks_parallel tasks agents completion).get? i =
      some (execute_single_task (tasks.get ⟨i, hi⟩)
        (agents.get ⟨i % agents.length, hi2⟩)) := by
  rw [execute_tasks_parallel_eq tasks agents completion hA hperm]
  rw [List.get?_map, List.get?_enum, List.get?_eq_get hi]
  simp only [Option.map_some']
  have hgetD : agents.getD (i % agents.length) dummyAgent =
      agents.get ⟨i % agents.length, hi2⟩ := by
    rw [List.getD_eq_getElem?_getD, List.getElem?_eq_getElem hi2]
    rfl
  exact congrArg some (by rw [← hgetD])

/-- C5 witness: two tasks, one agent, the second task completing first;
output slot 0 is still the first task, executed by the only agent. -/
theorem round_robin_submission_order_witness :
    (execute_tasks_parallel [testTask, testTask2] [okAgent] [1, 0]).get? 0 =
      some (execute_single_task testTask okAgent) := by
  have hp : ([1, 0] : List Nat).Perm (List.range 2) := by
    rw [show List.range 2 = [0, 1] from rfl]
    exact List.Perm.swap 0 1 []
  exact round_robin_submission_order [testTask, testTask2] [okAgent] [1, 0] 0
    (List.cons_ne_nil _ _) hp (by norm_num) (by norm_num)

theorem mem_of_mem_firstSeen_aux :
    ∀ (n : Nat) (l : List String), l.length ≤ n → ∀ x ∈ firstSeen l, x ∈ l := by
  intro n
  induction n with
  | zero =>
      intro l hl x hx
      have hnil : l = [] := List.length_eq_zero.mp (Nat.le_zero.mp hl)
      subst hnil
      simpa [firstSeen] using hx
  | succ n ih =>
      intro l hl x hx
      cases l with
      | nil => simp [firstSeen] at hx
      | cons a as =>
          simp only [firstSeen] at hx
          rcases List.mem_cons.mp hx with rfl | hx'
          · exact List.mem_cons_self _ _
          · have hlen : (as.filter (fun y => y ≠ a)).length ≤ n :=
              le_trans (List.length_filter_le _ _)
                (Nat.succ_le_succ_iff.mp (by simpa using hl))
            exact List.mem_cons_of_mem _
              (List.mem_of_mem_filter (ih _ hlen x hx'))

theorem mem_of_mem_firstSeen (l : List String) (x : String)
    (hx : x ∈ firstSeen l) : x ∈ l :=
  mem_of_mem_firstSeen_aux l.length l le_rfl x hx

theorem filter_isEmpty_eq_not_any {α : Type} (l : List α) (p : α → Bool) :
    (l.filter p).isEmpty = !l.any p := by
  induction l with
  | nil => rfl
  | cons a as ih => cases hp : p a <;> simp [List.filter_cons, hp, ih, List.any_cons]

theorem length_filter_split {α : Type} (l : List α) (p q : α → Bool) :
    (l.filter p).length =
      ((l.filter q).filter p).length + ((l.filter (fun a => !q a)).filter p).length := by
  induction l with
  | nil => simp
  | cons a as ih =>
      cases hq : q a <;> cases hp : p a <;>
        simp [List.filter_cons, hq, hp, ih] <;> omega

theorem filter_filter_of_imp {α : Type} (l : List α) (pa q : α → Bool)
    (h : ∀ a ∈ l, pa a = true → q a = true) :
    (l.filter q).filter pa = l.filter pa := by
  induction l with
  | nil => rfl
  | cons a as ih =>
      have hstep : ∀ x ∈ as, pa x = true → q x = true :=
        fun x hx himp => h x (List.mem_cons_of_mem a hx) himp
      cases hq : q a
      · cases hpa : pa a
        · simp [List.filter_cons, hq, hpa, ih hstep]
        · exact absurd (h a (List.mem_cons_self _ _) hpa) (by simp [hq])
      · cases hpa : pa a <;> simp [List.filter_cons, hq, hpa, ih hstep]

theorem length_filter_const {α : Type} (m : List α) (pc : α → Bool) (c : Bool)
    (h : ∀ a ∈ m, pc a = c) :
    (m.filter pc).length = if c = true then m.length else 0 := by
  rw [List.filter_congr h]
  cases c
  · rw [List.filter_false]
    rfl
  · rw [List.filter_true]
    rfl

theorem sum_filter_firstSeen (p : String → Bool) :
    ∀ (n : Nat) (tasks : List TaskSpec), tasks.length ≤ n →
      ((firstSeen (tasks.map taskType)).map
          (fun tt => if p tt = true then
            (tasks.filter (fun t => taskType t == tt)).length else 0)).sum =
        (tasks.filter (fun t => p (taskType t))).length := by
  intro n
  induction n with
  | zero =>
      intro tasks hl
      have hnil : tasks = [] := List.length_eq_zero.mp (Nat.le_zero.mp hl)
      subst hnil
      simp [firstSeen]
  | succ n ih =>
      intro tasks hl
      cases tasks with
      | nil => simp [firstSeen]
      | cons t rest =>
          rw [List.map_cons]
          simp only [firstSeen]
          rw [List.filter_map]
          rw [List.map_cons, List.sum_cons]
          have hq : ((fun y => decide (y ≠ taskType t)) ∘ taskType) =
              (fun u : TaskSpec => decide (taskType u ≠ taskType t)) := rfl
          rw [hq]
          have hrestlen : (rest.filter
              (fun u => decide (taskType u ≠ taskType t))).length ≤ n :=
            le_trans (List.length_filter_le _ _)
              (Nat.succ_le_succ_iff.mp (by simpa using hl))
          have htail : ∀ tt ∈ firstSeen ((rest.filter
              (fun u => decide (taskType u ≠ taskType t))).map taskType),
              (if p tt = true then
                  ((t :: rest).filter (fun u => taskType u == tt)).length else 0) =
              (if p tt = true then
                  ((rest.filter (fun u => decide (taskType u ≠ taskType t))).filter
                    (fun u => taskType u == tt)).length else 0) := by
            intro tt htt
            have htt1 := mem_of_mem_firstSeen _ _ htt
            rcases List.mem_map.mp htt1 with ⟨u, hu, rfl⟩
            have hne : taskType u ≠ taskType t :=
              of_decide_eq_true (List.mem_filter.mp hu).2
            have h1 : (t :: rest).filter (fun v => taskType v == taskType u) =
                rest.filter (fun v => taskType v == taskType u) := by
              rw [List.filter_cons, if_neg]
              intro hc
              exact hne (eq_of_beq hc).symm
            have h2 : (rest.filter (fun v => decide (taskType v ≠ taskType t))).filter
                (fun v => taskType v == taskType u) =
                rest.filter (fun v => taskType v == taskType u) := by
              apply filter_filter_of_imp
              intro v _ hv
              have : taskType v = taskType u := eq_of_beq hv
              exact decide_eq_true (this ▸ hne)
            rw [h1, h2]
          rw [List.map_congr_left htail]
          rw [ih (rest.filter (fun u => decide (taskType u ≠ taskType t))) hrestlen]
          have hhead : (t :: rest).filter (fun u => taskType u == taskType t) =
              t :: rest.filter (fun u => taskType u == taskType t) := by
            rw [List.filter_cons, if_pos]
            exact beq_self_eq_true _
          have hsplit := length_filter_split rest (fun u => p (taskType u))
            (fun u => decide (taskType u ≠ taskType t))
          have hnotq : ∀ a ∈ rest, (!decide (taskType a ≠ taskType t)) =
              (taskType a == taskType t) := by
            intro a _
            by_cases hat : taskType a = taskType t <;> simp [hat]
          have hnotq' : rest.filter (fun a => !decide (taskType a ≠ taskType t)) =
              rest.filter (fun a => taskType a == taskType t) :=
            List.filter_congr hnotq
          have hconst : ((rest.filter (fun a => taskType a == taskType t)).filter
              (fun u => p (taskType u))).length =
              if p (taskType t) = true then
                (rest.filter (fun a => taskType a == taskType t)).length else 0 := by
            apply length_filter_const
            intro a ha
            have : taskType a = taskType t := eq_of_beq (List.mem_filter.mp ha).2
            rw [this]
          cases hp : p (taskType t)
          · rw [if_neg (by simp [hp])]
            have hrhs : (t :: rest).filter (fun u => p (taskType u)) =
                rest.filter (fun u => p (taskType u)) := by
              rw [List.filter_cons, if_neg (by simp [hp])]
            rw [hrhs, hsplit, hnotq', hconst, if_neg (by simp [hp])]
            omega
          · rw [if_pos (by simp [hp])]
            have hrhs : ((t :: rest).filter (fun u => p (taskType u))).length =
                (rest.filter (fun u => p (taskType u))).length + 1 := by
              rw [List.filter_cons, if_pos (by simp [hp]), List.length_cons]
            rw [hhead, List.length_cons, hrhs, hsplit, hnotq', hconst,
              if_pos (by simp [hp])]
            omega

theorem delegate_foldl_length (sub_agents : List Agent)
    (completionOf : String → List Nat) :
    ∀ (groups : List (String × List TaskSpec)) (acc : List TaskResult),
      (∀ g ∈ groups, (completionOf g.1).Perm (List.range g.2.length)) →
      (groups.foldl
          (fun all_results g =>
            let capable_agents := sub_agents.filter (fun a => a.canHandle g.1)
            if capable_agents.isEmpty then all_results
            else all_results ++
              execute_tasks_parallel g.2 capable_agents (completionOf g.1))
          acc).length =
        acc.length + (groups.map (fun g =>
          if sub_agents.any (fun a => a.canHandle g.1) = true then
            g.2.length else 0)).sum := by
  intro groups
  induction groups with
  | nil => intro acc _; simp
  | cons g gs ih =>
      intro acc h
      have hg := h g (List.mem_cons_self _ _)
      have hrest : ∀ g' ∈ gs, (completionOf g'.1).Perm (List.range g'.2.length) :=
        fun g' hg' => h g' (List.mem_cons_of_mem _ hg')
      rw [List.foldl_cons, List.map_cons, List.sum_cons]
      cases hcap : (sub_agents.filter (fun a => a.canHandle g.1)).isEmpty
      · have hany : sub_agents.any (fun a => a.canHandle g.1) = true := by
          have hiff := filter_isEmpty_eq_not_any sub_agents (fun a => a.canHandle g.1)
          rw [hcap] at hiff
          cases hv : sub_agents.any (fun a => a.canHandle g.1)
          · rw [hv] at hiff; simp at hiff
          · rfl
        have hne : sub_agents.filter (fun a => a.canHandle g.1) ≠ [] := by
          intro hnil
          rw [hnil] at hcap
          simp at hcap
        dsimp only
        rw [hcap]
        simp only [Bool.false_eq_true, if_false]
        rw [ih (acc ++ execute_tasks_parallel g.2
          (sub_agents.filter (fun a => a.canHandle g.1)) (completionOf g.1)) hrest]
        rw [List.length_append,
          execute_tasks_parallel_length g.2 _ (completionOf g.1) hne hg]
        rw [if_pos hany]
        omega
      · have hany : sub_agents.any (fun a => a.canHandle g.1) = false := by
          have hiff := filter_isEmpty_eq_not_any sub_agents (fun a => a.canHandle g.1)
          rw [hcap] at hiff
          cases hv : sub_agents.any (fun a => a.canHandle g.1)
          · rfl
          · rw [hv] at hiff; simp at hiff
        dsimp only
        rw [hcap]
        rw [if_pos rfl]
        rw [ih acc hrest]
        rw [if_neg (by simp [hany])]
        omega

/-- C1: for every registered sub-agent list, every task list and every
family of per-group completion orders, `delegate_tasks` is a total function
(a worker raising is absorbed into a synthetic failed result, so it never
raises), and the number of TaskResults it returns equals the number of
input tasks whose type is accepted by at least one registered agent; tasks
in a type group with no capable agent contribute no result, every task in a
covered group exactly one. -/
theorem delegate_tasks_result_count (sub_agents : List Agent)
    (completionOf : String → List Nat) (tasks : List TaskSpec)
    (horders : ∀ g ∈ group_tasks_by_type tasks,
      (completionOf g.1).Perm (List.range g.2.length)) :
    (delegate_tasks sub_agents completionOf tasks).length =
      (tasks.filter (fun t =>
        sub_agents.any (fun a => a.canHandle (taskType t)))).length := by
  unfold delegate_tasks
  by_cases ht : tasks.isEmpty = true
  · have hnil : tasks = [] := List.isEmpty_iff.mp ht
    subst hnil
    simp
  · rw [if_neg ht]
    rw [delegate_foldl_length sub_agents completionOf (group_tasks_by_type tasks)
      [] horders]
    simp only [List.length_nil, Nat.zero_add]
    unfold group_tasks_by_type
    rw [List.map_map]
    exact sum_filter_firstSeen (fun s => sub_agents.any (fun a => a.canHandle s))
      tasks.length tasks le_rfl

theorem firstSeen_witness_types :
    firstSeen ["web_search", "web_search", "video"] = ["web_search", "video"] := by
  rw [show ("web_search" :: ["web_search", "video"]) =
    ["web_search", "web_search", "video"] from rfl]
  simp only [firstSeen]
  rw [show (["web_search", "video"].filter
    (fun y => y ≠ "web_search")) = ["video"] from rfl]
  simp only [firstSeen]
  rw [show (([] : List String).filter (fun y => y ≠ "video")) = [] from rfl]
  simp only [firstSeen]

theorem group_tasks_witness :
    group_tasks_by_type tasksW =
      [("web_search", [testTask, testTask2]), ("video", [videoTask])] := by
  unfold group_tasks_by_type
  rw [show tasksW.map taskType = ["web_search", "web_search", "video"] from rfl]
  rw [firstSeen_witness_types]
  rfl

/-- C1 witness: one web-search agent, two web-search tasks and one video
task with no capable agent; the delegation returns exactly as many results
as there are covered tasks. -/
theorem delegate_tasks_result_count_witness :
    (delegate_tasks [okAgent] completionW tasksW).length =
      (tasksW.filter (fun t =>
        [okAgent].any (fun a => a.canHandle (taskType t)))).length := by
  apply delegate_tasks_result_count
  intro g hg
  rw [group_tasks_witness] at hg
  rcases List.mem_cons.mp hg with rfl | hg2
  · show (completionW "web_search").Perm (List.range 2)
    rw [show completionW "web_search" = [1, 0] from rfl,
      show List.range 2 = [0, 1] from rfl]
    exact List.Perm.swap 0 1 []
  · rcases List.mem_cons.mp hg2 with rfl | hg3
    · show (completionW "video").Perm (List.range 1)
      rw [show completionW "video" = [0] from rfl,
        show List.range 1 = [0] from rfl]
    · simp at hg3
